import Mathlib

/-!
Verification of the contact-information scraper (`scrapper.py`).

The development shallowly embeds the extraction core of the program:
the per-category detectors (`extract_emails`, `extract_phones`,
`extract_whatsapp`, `extract_urls`, `extract_addresses`), the phone
plausibility filter (`clean_phone_numbers`) and the aggregator
(`scrape_contact_page` / `_empty_result`).  Python regular expressions
are embedded through a small backtracking matcher over `List Char`
whose combinators mirror the greedy/backtracking semantics of the
`re` module, and the parsed BeautifulSoup document is embedded as the
record of the query results the code reads from it.
-/

namespace Scrapper

/-- Python `\s` / `str.strip` whitespace characters (ASCII range). -/
def isSpacePy (c : Char) : Bool :=
  c = ' ' || c = '\t' || c = '\n' || c = '\r' || c = Char.ofNat 11 || c = Char.ofNat 12

/-- Drop trailing characters satisfying `p`. -/
def dropTrailWhile (p : Char → Bool) (l : List Char) : List Char :=
  (l.reverse.dropWhile p).reverse

/-- Python `str.strip()` on a character list. -/
def pyStripL (l : List Char) : List Char :=
  dropTrailWhile isSpacePy (l.dropWhile isSpacePy)

/-- Python `str.strip()`. -/
def pyStrip (s : String) : String := ⟨pyStripL s.data⟩

/-- Collapse every maximal run of whitespace to a single space
(the flag records whether the previous character was whitespace);
embeds Python `re.sub(r'\s+', ' ', ·)`. -/
def collapseWs : Bool → List Char → List Char
  | _, [] => []
  | prev, c :: cs =>
    if isSpacePy c then
      if prev then collapseWs true cs else ' ' :: collapseWs true cs
    else c :: collapseWs false cs

/-- `re.sub(r'\s+', ' ', num.strip())`: whitespace normalization used by
`clean_phone_numbers`. -/
def normSpace (s : String) : String := ⟨collapseWs false (pyStripL s.data)⟩

/-- `re.sub(r'\D', '', ·)`: the digits-only form of a candidate. -/
def digitsOnly (s : String) : List Char := s.data.filter Char.isDigit

/-- Substring test on character lists; embeds Python `in` on strings. -/
def containsSubL (pat : List Char) : List Char → Bool
  | [] => pat.isEmpty
  | s@(_ :: tail) => pat.isPrefixOf s || containsSubL pat tail

/-- Python `pat in s` for strings. -/
def containsSub (pat s : String) : Bool := containsSubL pat.data s.data

/-- Python `str.replace(pat, repl)` (all occurrences), fuel-indexed. -/
def replaceAllAux (pat repl : List Char) : Nat → List Char → List Char
  | 0, s => s
  | _ + 1, [] => []
  | fuel + 1, s@(c :: cs) =>
    if pat ≠ [] ∧ pat.isPrefixOf s then repl ++ replaceAllAux pat repl fuel (s.drop pat.length)
    else c :: replaceAllAux pat repl fuel cs

/-- Python `str.replace(pat, repl)` (all occurrences). -/
def replaceAll (pat repl s : List Char) : List Char :=
  replaceAllAux pat repl s.length s

/-- Python `s.split(sep)` for a one-character separator. -/
def splitChar (sep : Char) : List Char → List (List Char)
  | [] => [[]]
  | c :: cs =>
    if c = sep then [] :: splitChar sep cs
    else
      match splitChar sep cs with
      | [] => [[c]]
      | h :: t => (c :: h) :: t

/-- Python `s.split(sep)[0]`: the part before the first occurrence of `sep`. -/
def takeUntil (sep : Char) (l : List Char) : List Char :=
  l.takeWhile (fun c => c ≠ sep)

/-- Lower-case a string character by character (Python `str.lower()` on ASCII). -/
def lowerStr (s : String) : String := ⟨s.data.map Char.toLower⟩

/-- `' '.join` on character lists. -/
def joinSp (ls : List (List Char)) : List Char := List.intercalate [' '] ls

/-- Python `set.add`: append the string only when it is not yet present. -/
def addS (acc : List String) (x : String) : List String :=
  if x ∈ acc then acc else acc ++ [x]

/-- A loop that for each element of `l` either adds one string to the
accumulated set (`f b = some s`) or adds nothing (`f b = none`); this is
the shape of every candidate-collection loop in the scraper. -/
def collectWhere {β : Type} (f : β → Option String) (l : List β) (init : List String) :
    List String :=
  l.foldl (fun acc b => match f b with | some s => addS acc s | none => acc) init

theorem mem_addS {acc : List String} {x y : String} :
    y ∈ addS acc x ↔ y ∈ acc ∨ y = x := by
  unfold addS
  split
  · constructor
    · exact Or.inl
    · rintro (h | rfl)
      · exact h
      · assumption
  · simp [List.mem_append]

theorem mem_collectWhere {β : Type} {f : β → Option String} {l : List β}
    {init : List String} {x : String} :
    x ∈ collectWhere f l init ↔ x ∈ init ∨ ∃ b ∈ l, f b = some x := by
  induction l generalizing init with
  | nil => simp [collectWhere]
  | cons b l ih =>
    unfold collectWhere at ih ⊢
    simp only [List.foldl_cons]
    rcases hb : f b with _ | s
    · rw [ih]
      constructor
      · rintro (h | ⟨b', hb', hf⟩)
        · exact Or.inl h
        · exact Or.inr ⟨b', List.mem_cons_of_mem _ hb', hf⟩
      · rintro (h | ⟨b', hb', hf⟩)
        · exact Or.inl h
        · rcases List.mem_cons.mp hb' with rfl | hb'
          · rw [hb] at hf; cases hf
          · exact Or.inr ⟨b', hb', hf⟩
    · rw [ih]
      constructor
      · rintro (h | ⟨b', hb', hf⟩)
        · rcases mem_addS.mp h with h | rfl
          · exact Or.inl h
          · exact Or.inr ⟨b, List.mem_cons_self b l, hb⟩
        · exact Or.inr ⟨b', List.mem_cons_of_mem _ hb', hf⟩
      · rintro (h | ⟨b', hb', hf⟩)
        · exact Or.inl (mem_addS.mpr (Or.inl h))
        · rcases List.mem_cons.mp hb' with rfl | hb'
          · rw [hb] at hf
            exact Or.inl (mem_addS.mpr (Or.inr (Option.some_injective _ hf.symm)))
          · exact Or.inr ⟨b', hb', hf⟩

/-! ### A tiny backtracking regex engine

Every pattern the scraper compiles is a sequence of literals,
single-character classes, and greedy quantifiers over single-character
classes.  The combinators below are continuation-passing matchers with
exactly the greedy-first backtracking order of Python's `re` module:
a quantifier first tries to consume a character and only on failure of
the rest of the pattern falls back to stopping early; an alternation
tries its branches left to right. -/

/-- Match one character of the class `p`. -/
def mcls {α : Type} (p : Char → Bool) (k : List Char → Option α) : List Char → Option α
  | [] => none
  | c :: cs => if p c then k cs else none

/-- Greedy `p?`: try consuming one character of `p` first. -/
def mopt {α : Type} (p : Char → Bool) (k : List Char → Option α) : List Char → Option α
  | [] => k []
  | c :: cs => if p c then (k cs).orElse (fun _ => k (c :: cs)) else k (c :: cs)

/-- Greedy `p*` with backtracking. -/
def mstar {α : Type} (p : Char → Bool) (k : List Char → Option α) : List Char → Option α
  | [] => k []
  | c :: cs => if p c then (mstar p k cs).orElse (fun _ => k (c :: cs)) else k (c :: cs)

/-- Greedy `p{lo,hi}` with backtracking (counted repetition of a class). -/
def mrep {α : Type} (p : Char → Bool) (lo : Nat) : Nat → (List Char → Option α) → List Char → Option α
  | 0, k, s => if lo = 0 then k s else none
  | _ + 1, k, [] => if lo = 0 then k [] else none
  | hi + 1, k, s@(c :: cs) =>
    if p c then
      (mrep p (lo - 1) hi k cs).orElse (fun _ => if lo = 0 then k s else none)
    else if lo = 0 then k s else none

/-- Case-sensitive literal. -/
def mlitCS {α : Type} : List Char → (List Char → Option α) → List Char → Option α
  | [], k, s => k s
  | _ :: _, _, [] => none
  | l :: ls, k, c :: cs => if c = l then mlitCS ls k cs else none

/-- Case-insensitive literal (`re.IGNORECASE`). -/
def mlitCI {α : Type} : List Char → (List Char → Option α) → List Char → Option α
  | [], k, s => k s
  | _ :: _, _, [] => none
  | l :: ls, k, c :: cs => if c.toLower = l.toLower then mlitCI ls k cs else none

theorem orElse_eq_some {α : Type} {a : Option α} {f : Unit → Option α} {r : α}
    (h : a.orElse f = some r) : a = some r ∨ f () = some r := by
  cases a with
  | none => exact Or.inr h
  | some v => exact Or.inl h

theorem mcls_eq_some {α : Type} {p : Char → Bool} {k : List Char → Option α}
    {s : List Char} {r : α} (h : mcls p k s = some r) :
    ∃ c cs, s = c :: cs ∧ p c = true ∧ k cs = some r := by
  cases s with
  | nil => simp [mcls] at h
  | cons c cs =>
    unfold mcls at h
    by_cases hp : p c
    · exact ⟨c, cs, rfl, hp, by simpa [hp] using h⟩
    · simp [hp] at h

theorem mopt_eq_some {α : Type} {p : Char → Bool} {k : List Char → Option α}
    {s : List Char} {r : α} (h : mopt p k s = some r) :
    (∃ c cs, s = c :: cs ∧ p c = true ∧ k cs = some r) ∨ k s = some r := by
  cases s with
  | nil => exact Or.inr (by simpa [mopt] using h)
  | cons c cs =>
    simp only [mopt] at h
    by_cases hp : p c
    · rw [if_pos hp] at h
      rcases orElse_eq_some h with h | h
      · exact Or.inl ⟨c, cs, rfl, hp, h⟩
      · exact Or.inr h
    · rw [if_neg hp] at h
      exact Or.inr h

theorem mstar_eq_some {α : Type} {p : Char → Bool} {k : List Char → Option α}
    {s : List Char} {r : α} (h : mstar p k s = some r) :
    ∃ t u, s = t ++ u ∧ (∀ c ∈ t, p c = true) ∧ k u = some r := by
  induction s with
  | nil => exact ⟨[], [], rfl, by simp, by simpa [mstar] using h⟩
  | cons c cs ih =>
    simp only [mstar] at h
    by_cases hp : p c
    · rw [if_pos hp] at h
      rcases orElse_eq_some h with h | h
      · obtain ⟨t, u, hsplit, hall, hk⟩ := ih h
        refine ⟨c :: t, u, by simp [hsplit], ?_, hk⟩
        intro x hx
        rcases List.mem_cons.mp hx with rfl | hx
        · exact hp
        · exact hall x hx
      · exact ⟨[], c :: cs, rfl, by simp, h⟩
    · rw [if_neg hp] at h
      exact ⟨[], c :: cs, rfl, by simp, h⟩

theorem mrep_eq_some {α : Type} {p : Char → Bool} {k : List Char → Option α} :
    ∀ {hi lo : Nat} {s : List Char} {r : α}, mrep p lo hi k s = some r →
    ∃ t u, s = t ++ u ∧ lo ≤ t.length ∧ t.length ≤ hi ∧
      (∀ c ∈ t, p c = true) ∧ k u = some r := by
  intro hi
  induction hi with
  | zero =>
    intro lo s r h
    unfold mrep at h
    by_cases hlo : lo = 0
    · exact ⟨[], s, rfl, by simp [hlo], by simp, by simp, by simpa [hlo] using h⟩
    · simp [hlo] at h
  | succ hi ih =>
    intro lo s r h
    cases s with
    | nil =>
      simp only [mrep] at h
      by_cases hlo : lo = 0
      · exact ⟨[], [], rfl, by simp [hlo], by simp, by simp, by simpa [hlo] using h⟩
      · simp [hlo] at h
    | cons c cs =>
      simp only [mrep] at h
      by_cases hp : p c
      · rw [if_pos hp] at h
        rcases orElse_eq_some h with h | h
        · obtain ⟨t, u, hsplit, hlo', hhi, hall, hk⟩ := ih h
          refine ⟨c :: t, u, by simp [hsplit], ?_, ?_, ?_, hk⟩
          · simp only [List.length_cons]
            omega
          · simp only [List.length_cons]
            omega
          · intro x hx
            rcases List.mem_cons.mp hx with rfl | hx
            · exact hp
            · exact hall x hx
        · by_cases hlo : lo = 0
          · exact ⟨[], c :: cs, rfl, by simp [hlo], by simp, by simp,
              by simpa [hlo] using h⟩
          · simp [hlo] at h
      · rw [if_neg hp] at h
        by_cases hlo : lo = 0
        · exact ⟨[], c :: cs, rfl, by simp [hlo], by simp, by simp,
            by simpa [hlo] using h⟩
        · simp [hlo] at h

theorem mlitCI_eq_some {α : Type} {k : List Char → Option α} :
    ∀ {ls s : List Char} {r : α}, mlitCI ls k s = some r → ∃ u, k u = some r := by
  intro ls
  induction ls with
  | nil => intro s r h; exact ⟨s, by simpa [mlitCI] using h⟩
  | cons l ls ih =>
    intro s r h
    cases s with
    | nil => simp [mlitCI] at h
    | cons c cs =>
      unfold mlitCI at h
      by_cases hc : c.toLower = l.toLower
      · exact ih (by simpa [hc] using h)
      · simp [hc] at h

theorem mopt_eq_some_exists {α : Type} {p : Char → Bool} {k : List Char → Option α}
    {s : List Char} {r : α} (h : mopt p k s = some r) : ∃ u, k u = some r := by
  rcases mopt_eq_some h with ⟨c, cs, _, _, hk⟩ | hk
  · exact ⟨cs, hk⟩
  · exact ⟨s, hk⟩

theorem mstar_eq_some_exists {α : Type} {p : Char → Bool} {k : List Char → Option α}
    {s : List Char} {r : α} (h : mstar p k s = some r) : ∃ u, k u = some r := by
  obtain ⟨_, u, _, _, hk⟩ := mstar_eq_some h
  exact ⟨u, hk⟩

/-! ### Character classes of the scraper's patterns -/

/-- `[1-9]`: a nonzero decimal digit. -/
def isNonzeroDigit (c : Char) : Bool := c.isDigit && !(c = '0')

/-- `[\s.-]`: the separators tolerated inside a phone number. -/
def isPhoneSep (c : Char) : Bool := isSpacePy c || c = '.' || c = '-'

/-- `[a-zA-Z0-9._%+-]`: the local part of `EMAIL_REGEX`. -/
def isEmailLocal (c : Char) : Bool :=
  c.isAlphanum || c = '.' || c = '_' || c = '%' || c = '+' || c = '-'

/-- `[a-zA-Z0-9.-]`: the domain part of `EMAIL_REGEX`. -/
def isEmailDomain (c : Char) : Bool := c.isAlphanum || c = '.' || c = '-'

/-- The characters excluded by `URL_REGEX`'s negated class. -/
def isUrlChar (c : Char) : Bool :=
  !(isSpacePy c || c = '<' || c = '>' || c = Char.ofNat 34 || c = Char.ofNat 39 ||
    c = Char.ofNat 123 || c = Char.ofNat 125 || c = '|' || c = Char.ofNat 92 ||
    c = '^' || c = Char.ofNat 96 || c = '[' || c = ']')

/-- `[\d\s()-]`: the body class of the WhatsApp element-text pattern. -/
def isWaElemChar (c : Char) : Bool :=
  c.isDigit || isSpacePy c || c = '(' || c = ')' || c = '-'

/-- `[A-Z]`: an upper-case letter (UK postcode pattern). -/
def isUpperAlpha (c : Char) : Bool := 'A' ≤ c && c ≤ 'Z'

/-! ### The compiled patterns

Each `...MatchAt` function attempts the pattern at the head of the
input (like `re.match`) and on success returns the pair
`(captured group, remaining suffix)`.  For patterns without an inner
group the capture is the full matched span, which is what `re.findall`
returns for them. -/

/-- A continuation that captures the span consumed since `s0`. -/
def capK (s0 : List Char) : List Char → Option (List Char × List Char) :=
  fun rest => some (s0.take (s0.length - rest.length), rest)

/-- `EMAIL_REGEX = [a-zA-Z0-9._%+-]+@[a-zA-Z0-9.-]+\.[a-zA-Z]{2,}` at the
head of the input. -/
def emailMatchAt (s : List Char) : Option (List Char × List Char) :=
  mcls isEmailLocal (mstar isEmailLocal (mcls (fun c => c = '@')
    (mcls isEmailDomain (mstar isEmailDomain (mcls (fun c => c = '.')
      (mcls Char.isAlpha (mcls Char.isAlpha (mstar Char.isAlpha (capK s))))))))) s

/-- `re.match(EMAIL_REGEX, e)` used as a guard: does the pattern match at
the start of the candidate (a prefix match, not a full match)? -/
def emailMatchStart (e : String) : Bool := (emailMatchAt e.data).isSome

/-- `PHONE_REGEX = (\+?[1-9]\d{0,3}[\s.-]?\d{2,4}[\s.-]?\d{2,4}[\s.-]?\d{2,4})`
at the head of the input. -/
def phoneMatchAt (s : List Char) : Option (List Char × List Char) :=
  mopt (fun c => c = '+') (mcls isNonzeroDigit (mrep Char.isDigit 0 3
    (mopt isPhoneSep (mrep Char.isDigit 2 4 (mopt isPhoneSep (mrep Char.isDigit 2 4
      (mopt isPhoneSep (mrep Char.isDigit 2 4 (capK s))))))))) s

/-- The capture group `(\+?[1-9]\d{7,15})` of `WHATSAPP_REGEX`: on
success returns the captured number together with the rest of the input. -/
def waNumCap (s2 : List Char) : Option (List Char × List Char) :=
  mopt (fun c => c = '+') (mcls isNonzeroDigit (mrep Char.isDigit 7 15 (capK s2))) s2

/-- `WHATSAPP_REGEX = (?:whatsapp|whats app|wa|w\.a\.?)\s*:?\s*(\+?[1-9]\d{7,15})`
(case-insensitive) at the head of the input; the returned capture is the
number group, as produced by `re.findall` on a one-group pattern. -/
def whatsappMatchAt (s : List Char) : Option (List Char × List Char) :=
  let tailPat : List Char → Option (List Char × List Char) :=
    mstar isSpacePy (mopt (fun c => c = ':') (mstar isSpacePy waNumCap))
  (mlitCI "whatsapp".data tailPat s).orElse fun _ =>
    (mlitCI "whats app".data tailPat s).orElse fun _ =>
      (mlitCI "wa".data tailPat s).orElse fun _ =>
        mlitCI "w.a".data (mopt (fun c => c = '.') tailPat) s

/-- `URL_REGEX = https?://[^\s<>"'...]*` at the head of the input. -/
def urlMatchAt (s : List Char) : Option (List Char × List Char) :=
  mlitCS "http".data (mopt (fun c => c = 's') (mlitCS "://".data
    (mstar isUrlChar (capK s)))) s

/-- `(\+?\d{7,15})`: the number extracted from a WhatsApp link target. -/
def waUrlMatchAt (s : List Char) : Option (List Char × List Char) :=
  mopt (fun c => c = '+') (mrep Char.isDigit 7 15 (capK s)) s

/-- `(\+?\d[\d\s()-]{7,15})`: the number pattern scanned inside
WhatsApp-keyword elements. -/
def waElemMatchAt (s : List Char) : Option (List Char × List Char) :=
  mopt (fun c => c = '+') (mcls Char.isDigit (mrep isWaElemChar 7 15 (capK s))) s

/-- Postal pattern `\d{5,6}`. -/
def postal1MatchAt (s : List Char) : Option (List Char × List Char) :=
  mrep Char.isDigit 5 6 (capK s) s

/-- Postal pattern `\d{3}\s*\d{3}`. -/
def postal2MatchAt (s : List Char) : Option (List Char × List Char) :=
  mrep Char.isDigit 3 3 (mstar isSpacePy (mrep Char.isDigit 3 3 (capK s))) s

/-- Postal pattern `[A-Z]{1,2}\d{1,2}[A-Z]?\s*\d[A-Z]{2}` (UK postcodes). -/
def postal3MatchAt (s : List Char) : Option (List Char × List Char) :=
  mrep isUpperAlpha 1 2 (mrep Char.isDigit 1 2 (mopt isUpperAlpha
    (mstar isSpacePy (mcls Char.isDigit (mrep isUpperAlpha 2 2 (capK s)))))) s

/-! ### Scanning (re.findall / re.finditer / re.search) -/

/-- Non-overlapping left-to-right scan, as `re.findall`/`re.finditer`:
try the pattern at every position, and after a match continue right
after its end.  Returns `(start, length, capture)` triples. -/
def scanA (matchAt : List Char → Option (List Char × List Char)) :
    Nat → Nat → List Char → List (Nat × Nat × List Char)
  | 0, _, _ => []
  | fuel + 1, pos, s =>
    match matchAt s with
    | some (cap, rest) =>
      let len := s.length - rest.length
      if len = 0 then
        match s with
        | [] => []
        | _ :: tail => scanA matchAt fuel (pos + 1) tail
      else (pos, len, cap) :: scanA matchAt fuel (pos + len) rest
    | none =>
      match s with
      | [] => []
      | _ :: tail => scanA matchAt fuel (pos + 1) tail

/-- `re.findall`: the list of captures over the whole input. -/
def findallCaps (matchAt : List Char → Option (List Char × List Char))
    (s : List Char) : List (List Char) :=
  (scanA matchAt (s.length + 1) 0 s).map (fun t => t.2.2)

/-- `re.finditer`: the list of `(start, length)` spans over the whole input. -/
def finditerSpans (matchAt : List Char → Option (List Char × List Char))
    (s : List Char) : List (Nat × Nat) :=
  (scanA matchAt (s.length + 1) 0 s).map (fun t => (t.1, t.2.1))

/-- `re.search`: the capture of the first match, if any. -/
def searchFirst (matchAt : List Char → Option (List Char × List Char)) :
    List Char → Option (List Char)
  | [] => (matchAt []).map (fun t => t.1)
  | s@(_ :: tail) =>
    match matchAt s with
    | some (cap, _) => some cap
    | none => searchFirst matchAt tail

theorem scanA_mem {m : List Char → Option (List Char × List Char)} :
    ∀ {fuel pos : Nat} {s : List Char} {trip : Nat × Nat × List Char},
      trip ∈ scanA m fuel pos s → ∃ t rest, m t = some (trip.2.2, rest) := by
  intro fuel
  induction fuel with
  | zero => intro pos s trip h; simp [scanA] at h
  | succ fuel ih =>
    intro pos s trip h
    rcases hm : m s with _ | ⟨cap, rest⟩
    · simp only [scanA, hm] at h
      cases s with
      | nil => simp at h
      | cons c tail => exact ih h
    · simp only [scanA, hm] at h
      by_cases hlen : s.length - rest.length = 0
      · rw [if_pos hlen] at h
        cases s with
        | nil => simp at h
        | cons c tail => exact ih h
      · rw [if_neg hlen] at h
        rcases List.mem_cons.mp h with rfl | h
        · exact ⟨s, rest, hm⟩
        · exact ih h

theorem findallCaps_mem {m : List Char → Option (List Char × List Char)}
    {s cap : List Char} (h : cap ∈ findallCaps m s) :
    ∃ t rest, m t = some (cap, rest) := by
  obtain ⟨trip, htrip, rfl⟩ := List.mem_map.mp h
  exact scanA_mem htrip

/-! ### The parsed document

BeautifulSoup is an external collaborator; the detectors only read a
fixed set of query results from the parsed page, and the document is
embedded as the record of those query results. -/

/-- The parsed document, as the scraper queries it:
`text` is `soup.get_text()`; `hrefs` the `href` values of the
`<a href=...>` elements in document order; `dataEmails`/`dataPhones`
the values of `data-email`/`data-phone` attributes; `addressTags` the
texts (`get_text(separator=' ', strip=True)`) of `<address>` elements;
`classTexts pat` the texts of elements whose `class` attribute matches
`pat` case-insensitively; `itemtypeAddressTexts` the texts of elements
whose `itemtype` matches `address`; `waElemTexts` the texts of
`button`/`div`/`span` elements whose string matches a WhatsApp keyword. -/
structure Soup where
  text : String
  hrefs : List String
  dataEmails : List String
  dataPhones : List String
  addressTags : List String
  classTexts : String → List String
  itemtypeAddressTexts : List String
  waElemTexts : List String

/-! ### Email detector (`extract_emails`) -/

/-- `re.findall(EMAIL_REGEX, text, re.IGNORECASE)` (the classes already
cover both cases, so the flag is inert). -/
def emailFindall (text : String) : List String :=
  (findallCaps emailMatchAt text.data).map (fun l => ⟨l⟩)

/-- One `mailto:` link: strip the prefix, drop any query-string suffix
after `?` or `&`, and keep the result only when `re.match(EMAIL_REGEX, ·)`
succeeds. -/
def mailtoCandidate (href : String) : Option String :=
  if "mailto:".data.isPrefixOf href.data then
    let e : String := ⟨takeUntil '&' (takeUntil '?' (replaceAll "mailto:".data [] href.data))⟩
    if emailMatchStart e then some e else none
  else none

/-- One `data-email` attribute value, kept when `re.match` succeeds. -/
def dataEmailCandidate (e : String) : Option String :=
  if emailMatchStart e then some e else none

/-- `extract_emails`: text scan, then `mailto:` links, then `data-email`
attributes, accumulated into one set. -/
def extract_emails (soup : Soup) : List String :=
  collectWhere dataEmailCandidate soup.dataEmails
    (collectWhere mailtoCandidate soup.hrefs
      (collectWhere some (emailFindall soup.text) []))

/-! ### Phone detector (`extract_phones` / `clean_phone_numbers`) -/

/-- `re.findall(PHONE_REGEX, text)`. -/
def phoneFindall (text : String) : List String :=
  (findallCaps phoneMatchAt text.data).map (fun l => ⟨l⟩)

/-- `tel:` link targets: strip the prefix and surrounding whitespace. -/
def telCandidates (hrefs : List String) : List String :=
  hrefs.filterMap (fun href =>
    if "tel:".data.isPrefixOf href.data then
      some (pyStrip ⟨replaceAll "tel:".data [] href.data⟩)
    else none)

/-- The raw candidate list handed to the plausibility filter: free text,
`tel:` links, `data-phone` attributes, in that order. -/
def raw_phone_candidates (soup : Soup) : List String :=
  phoneFindall soup.text ++ telCandidates soup.hrefs ++ soup.dataPhones

/-- Does the digit string start with one of the given prefixes
(Python `str.startswith(tuple)`)? -/
def startsWithAny (d : List Char) (pats : List String) : Bool :=
  pats.any (fun p => p.data.isPrefixOf d)

/-- The per-candidate body of `clean_phone_numbers`: whitespace-normalize,
then apply the four rejection rules on the digits-only form; a surviving
candidate contributes its whitespace-normalized form. -/
def phoneKeep (num : String) : Option String :=
  let clean_num := normSpace num
  let d := digitsOnly clean_num
  if d.length < 7 ∨ 15 < d.length then none
  else if startsWithAny d ["0000", "1111", "2222", "3333"] then none
  else if d.length = 4 ∧ startsWithAny d ["19", "20"] then none
  else if 10 ≤ d.length ∧ startsWithAny d ["16", "17", "20"] then none
  else some clean_num

/-- `clean_phone_numbers`: filter every raw candidate and collect the
survivors into a set. -/
def clean_phone_numbers (raws : List String) : List String :=
  collectWhere phoneKeep raws []

/-- `extract_phones`: all raw sources pass through the same filter. -/
def extract_phones (soup : Soup) : List String :=
  clean_phone_numbers (raw_phone_candidates soup)

/-- `phoneKeep` with the 4-digit-year branch removed (the variant used to
state the dead-branch refinement claim). -/
def phoneKeepNoYearBranch (num : String) : Option String :=
  let clean_num := normSpace num
  let d := digitsOnly clean_num
  if d.length < 7 ∨ 15 < d.length then none
  else if startsWithAny d ["0000", "1111", "2222", "3333"] then none
  else if 10 ≤ d.length ∧ startsWithAny d ["16", "17", "20"] then none
  else some clean_num

/-- `clean_phone_numbers` with the 4-digit-year branch removed. -/
def clean_phone_numbers_no_year_branch (raws : List String) : List String :=
  collectWhere phoneKeepNoYearBranch raws []

/-! ### WhatsApp detector (`extract_whatsapp`) -/

/-- The captures of `re.findall(WHATSAPP_REGEX, text, re.IGNORECASE)`. -/
def waTextMatches (text : String) : List String :=
  (findallCaps whatsappMatchAt text.data).map (fun l => ⟨l⟩)

/-- The filter applied to a keyword-anchored (or element-text) match:
keep it when its digits-only form has at least 7 digits. -/
def whatsapp_text_candidate (m : String) : Option String :=
  if 7 ≤ (digitsOnly m).length then some m else none

/-- The keyword-anchored text strategy of the WhatsApp detector
(lines 161-167 of `scrapper.py`), on its own. -/
def whatsapp_text_strategy (text : String) : List String :=
  collectWhere whatsapp_text_candidate (waTextMatches text) []

/-- One link target: if it mentions a WhatsApp host, `re.search` the
first `(\+?\d{7,15})` in it. -/
def waLinkCandidate (href : String) : Option String :=
  if containsSub "wa.me" href || containsSub "whatsapp.com" href ||
      containsSub "api.whatsapp.com" href then
    (searchFirst waUrlMatchAt href.data).map (fun cap => (⟨cap⟩ : String))
  else none

/-- `re.findall` of the element-text number pattern inside one
keyword-bearing element. -/
def waElemNums (t : String) : List String :=
  (findallCaps waElemMatchAt t.data).map (fun l => ⟨l⟩)

/-- `extract_whatsapp`: keyword-anchored text scan, WhatsApp link
targets, then keyword-bearing element texts. -/
def extract_whatsapp (soup : Soup) : List String :=
  collectWhere whatsapp_text_candidate (soup.waElemTexts.flatMap waElemNums)
    (collectWhere waLinkCandidate soup.hrefs
      (whatsapp_text_strategy soup.text))

/-! ### URL detector (`extract_urls`) -/

/-- Split at the first occurrence of `"://"`. -/
def splitScheme : List Char → Option (List Char × List Char)
  | [] => none
  | s@(c :: cs) =>
    if "://".data.isPrefixOf s then some ([], s.drop 3)
    else (splitScheme cs).map (fun pr => (c :: pr.1, pr.2))

/-- The `(scheme, netloc)` fields of `urllib.parse.urlparse`, modelled
for absolute URLs of the `scheme://netloc/...` shape (the scheme is
lower-cased, the netloc ends at the first `/`, `?` or `#`); other inputs
parse to empty scheme and netloc. -/
def urlparse_scheme_netloc (u : String) : String × String :=
  match splitScheme u.data with
  | some (sch, rest) =>
    (⟨sch.map Char.toLower⟩, ⟨rest.takeWhile (fun c => c ≠ '/' && c ≠ '?' && c ≠ '#')⟩)
  | none => ("", "")

/-- The media/resource extensions excluded by the URL detector. -/
def media_extensions : List String :=
  [".jpg", ".png", ".css", ".js", ".pdf", ".jpeg", ".svg", ".gif", ".ico"]

/-- `u.lower().endswith(tuple(media_extensions))`. -/
def hasMediaExt (u : String) : Bool :=
  media_extensions.any (fun e => e.data.isSuffixOf (u.data.map Char.toLower))

/-- The trailing punctuation stripped from text-scanned URLs
(`'.,;:)]}>"\''`). -/
def punctuationChars : List Char :=
  ['.', ',', ';', ':', ')', ']', Char.ofNat 125, '>', Char.ofNat 34, Char.ofNat 39]

/-- `url.rstrip(punctuation_chars)`. -/
def rstripPunct (u : String) : String :=
  ⟨dropTrailWhile (fun c => punctuationChars.contains c) u.data⟩

/-- `re.findall(URL_REGEX, text)`. -/
def urlFindall (text : String) : List String :=
  (findallCaps urlMatchAt text.data).map (fun l => ⟨l⟩)

/-- A text-scanned URL: strip trailing punctuation, then keep it unless
it ends in a media extension. -/
def textUrlCandidate (u : String) : Option String :=
  let clean_url := rstripPunct u
  if hasMediaExt clean_url then none else some clean_url

/-- `urllib.parse.urljoin(base_domain, href)` modelled for root-relative
references: a network-path reference `//host/...` keeps only the scheme,
any other `/...` is appended to the scheme+host (dot-segment references
do not occur in the verified claims). -/
def urljoinRoot (scheme base_domain href : String) : String :=
  if "//".data.isPrefixOf href.data then scheme ++ ":" ++ href
  else base_domain ++ href

/-- One anchor target: absolute targets are media-filtered and kept
verbatim; root-relative targets are resolved against the base and kept
unconditionally; anything else contributes nothing. -/
def hrefUrlCandidate (scheme base_domain href : String) : Option String :=
  if "http".data.isPrefixOf href.data then
    if hasMediaExt href then none else some href
  else if ['/'].isPrefixOf href.data then some (urljoinRoot scheme base_domain href)
  else none

/-- `f"{parsed_base.scheme}://{parsed_base.netloc}"`: the canonical
site root seeded into the URL set. -/
def base_domain (base_url : String) : String :=
  (urlparse_scheme_netloc base_url).1 ++ "://" ++ (urlparse_scheme_netloc base_url).2

/-- `extract_urls`: seed with the page's scheme+host, scan the text,
then process the anchor targets. -/
def extract_urls (soup : Soup) (base_url : String) : List String :=
  collectWhere (hrefUrlCandidate (urlparse_scheme_netloc base_url).1 (base_domain base_url))
    soup.hrefs
    (collectWhere textUrlCandidate (urlFindall soup.text) (addS [] (base_domain base_url)))

/-! ### Address detector (`extract_addresses`) -/

/-- The address keyword vocabulary (`ADDRESS_KEYWORDS`). -/
def ADDRESS_KEYWORDS : List String :=
  ["address", "location", "addr", "office", "headquarters", "visit us",
   "find us", "our location", "contact address", "postal address",
   "street", "building", "floor", "suite", "room", "block", "plot",
   "city", "state", "country", "pin", "zip", "postal code"]

/-- The class-name vocabulary of strategy 2. -/
def address_classes : List String :=
  ["address", "location", "contact-info", "office-address"]

/-- `soup.get_text().split('\n')`. -/
def textLines (t : String) : List String :=
  (splitChar '\n' t.data).map (fun l => ⟨l⟩)

/-- Strategy 1: an `<address>` tag text, kept when longer than 10. -/
def addrTagCandidate (t : String) : Option String :=
  if 10 < t.length then some t else none

/-- Strategy 2: a class-matched element text, kept when its length is
strictly between 15 and 400. -/
def addrClassCandidate (t : String) : Option String :=
  if 15 < t.length ∧ t.length < 400 then some t else none

/-- Strategy 3: a schema.org address element text, kept when longer than 10. -/
def addrItemtypeCandidate (t : String) : Option String :=
  if 10 < t.length then some t else none

/-- Strategy 4, trigger: the stripped line `i` is nonempty and contains
an address keyword case-insensitively. -/
def address_trigger (lines : List String) (i : Nat) : Bool :=
  let line := pyStrip (lines.getD i "")
  !line.data.isEmpty && ADDRESS_KEYWORDS.any (fun kw => containsSub kw (lowerStr line))

/-- Strategy 4, context window: the stripped nonempty lines of
`lines[max(0, i-1) : min(len(lines), i+4)]`, joined by single spaces. -/
def address_context (lines : List String) (i : Nat) : String :=
  let lo := i - 1
  let hi := min lines.length (i + 4)
  ⟨joinSp ((((lines.drop lo).take (hi - lo)).map pyStrip).filter
    (fun l => !l.data.isEmpty) |>.map String.data)⟩

/-- Strategy 4, one line: if line `i` triggers, keep its context window
when the joined length is strictly between 20 and 500. -/
def address_window_candidate (lines : List String) (i : Nat) : Option String :=
  if address_trigger lines i then
    if 20 < (address_context lines i).length ∧ (address_context lines i).length < 500 then
      some (address_context lines i)
    else none
  else none

/-- Strategy 4 (keyword + context window) of the address detector, on
its own: the candidates collected over all line indices. -/
def address_strategy4 (lines : List String) : List String :=
  collectWhere (address_window_candidate lines) (List.range lines.length) []

/-- The street/locality keywords confirming a postal-code window. -/
def street_keywords : List String := ["street", "road", "avenue", "city", "town"]

/-- Strategy 5, one postal-code match `(start, length)`: take the
±100-character window, require a street keyword, re-split into
non-trivial lines, and keep the joined form when its length is strictly
between 30 and 300. -/
def postalCandidate (text : List Char) (span : Nat × Nat) : Option String :=
  let startPos := span.1 - 100
  let endPos := min text.length (span.1 + span.2 + 100)
  let context := pyStripL ((text.drop startPos).take (endPos - startPos))
  if street_keywords.any (fun kw => containsSubL kw.data (context.map Char.toLower)) then
    let ls := (splitChar '\n' context).map pyStripL
    let address_lines := ls.filter (fun l => !l.isEmpty && 5 < l.length)
    if !address_lines.isEmpty then
      let full := joinSp address_lines
      if 30 < full.length ∧ full.length < 300 then some ⟨full⟩ else none
    else none
  else none

/-- `extract_addresses`: the five strategies accumulated into one set,
in source order. -/
def extract_addresses (soup : Soup) : List String :=
  let lines := textLines soup.text
  let t := soup.text.data
  let spans := finditerSpans postal1MatchAt t ++ finditerSpans postal2MatchAt t ++
    finditerSpans postal3MatchAt t
  collectWhere (postalCandidate t) spans
    (collectWhere (address_window_candidate lines) (List.range lines.length)
      (collectWhere addrItemtypeCandidate soup.itemtypeAddressTexts
        (collectWhere addrClassCandidate (address_classes.flatMap soup.classTexts)
          (collectWhere addrTagCandidate soup.addressTags []))))

/-! ### Aggregator (`scrape_contact_page` / `_empty_result`) -/

/-- The result record of one extraction pass. -/
structure ResultRecord where
  emails : List String
  phones : List String
  whatsapp : List String
  urls : List String
  addresses : List String
  status : String

/-- `_empty_result`: all five sets empty, tagged with the given status
(the call sites pass `"failed"` when Python uses the default). -/
def empty_result (status : String) : ResultRecord :=
  { emails := [], phones := [], whatsapp := [], urls := [], addresses := [],
    status := status }

/-- The outcome of the fetch, as the `try` block of `scrape_contact_page`
observes it: one of the four caught exceptions, or a response carrying
its HTTP status code, content type, and the parsed document. -/
inductive FetchOutcome where
  | timeout
  | connectionError
  | requestError
  | unexpectedError
  | response (statusCode : Nat) (contentType : String) (doc : Soup)

/-- The URL normalization at the top of `scrape_contact_page`. -/
def normalize_url (url : String) : String :=
  if "http://".data.isPrefixOf url.data || "https://".data.isPrefixOf url.data then url
  else "https://" ++ url

/-- `scrape_contact_page`: classify the fetch outcome; on a 200 HTML
response run all five detectors, otherwise return the empty result with
the corresponding status. -/
def scrape_contact_page (url : String) (outcome : FetchOutcome) : ResultRecord :=
  let url := normalize_url url
  match outcome with
  | .timeout => empty_result "timeout"
  | .connectionError => empty_result "connection_error"
  | .requestError => empty_result "request_error"
  | .unexpectedError => empty_result "unexpected_error"
  | .response code ct soup =>
    if code ≠ 200 then empty_result "failed"
    else if !(containsSub "text/html" ct) then empty_result "failed"
    else
      { emails := extract_emails soup
        phones := extract_phones soup
        whatsapp := extract_whatsapp soup
        urls := extract_urls soup url
        addresses := extract_addresses soup
        status := "success" }

/-- The status string of each document-less fetch outcome, as assigned
by the `except` branches of `scrape_contact_page`. -/
def failureStatus : FetchOutcome → Option String
  | .timeout => some "timeout"
  | .connectionError => some "connection_error"
  | .requestError => some "request_error"
  | .unexpectedError => some "unexpected_error"
  | .response _ _ _ => none

/-- A document with no content at all, used for concrete scenarios. -/
def soup0 : Soup := ⟨"", [], [], [], [], fun _ => [], [], []⟩

/-! ### Helper lemmas about whitespace normalization -/

theorem isSpacePy_not_digit {c : Char} (h : isSpacePy c = true) :
    Char.isDigit c = false := by
  simp only [isSpacePy, Bool.or_eq_true, decide_eq_true_eq] at h
  rcases h with ((((rfl | rfl) | rfl) | rfl) | rfl) | rfl <;> decide

theorem filter_isDigit_dropWhile (l : List Char) :
    (l.dropWhile isSpacePy).filter Char.isDigit = l.filter Char.isDigit := by
  induction l with
  | nil => rfl
  | cons c cs ih =>
    by_cases hc : isSpacePy c
    · simp [List.dropWhile_cons, hc, List.filter_cons, isSpacePy_not_digit hc, ih]
    · simp [List.dropWhile_cons, hc]

theorem filter_isDigit_dropTrailWhile (l : List Char) :
    (dropTrailWhile isSpacePy l).filter Char.isDigit = l.filter Char.isDigit := by
  unfold dropTrailWhile
  rw [List.filter_reverse, filter_isDigit_dropWhile, ← List.filter_reverse,
    List.reverse_reverse]

theorem filter_isDigit_pyStripL (l : List Char) :
    (pyStripL l).filter Char.isDigit = l.filter Char.isDigit := by
  unfold pyStripL
  rw [filter_isDigit_dropTrailWhile, filter_isDigit_dropWhile]

theorem filter_isDigit_collapseWs (b : Bool) (l : List Char) :
    (collapseWs b l).filter Char.isDigit = l.filter Char.isDigit := by
  induction l generalizing b with
  | nil => rfl
  | cons c cs ih =>
    by_cases hc : isSpacePy c
    · have hd := isSpacePy_not_digit hc
      cases b <;> simp [collapseWs, hc, List.filter_cons, hd, ih]
    · simp [collapseWs, hc, List.filter_cons, ih]

/-- Whitespace normalization does not change the digits-only form. -/
theorem digitsOnly_normSpace (s : String) : digitsOnly (normSpace s) = digitsOnly s := by
  show (collapseWs false (pyStripL s.data)).filter Char.isDigit = s.data.filter Char.isDigit
  rw [filter_isDigit_collapseWs, filter_isDigit_pyStripL]

/-- A successful `phoneKeep` yields the whitespace-normalized candidate,
and its digits-only form is within the length bounds. -/
theorem phoneKeep_eq_some {num s : String} (h : phoneKeep num = some s) :
    s = normSpace num ∧ 7 ≤ (digitsOnly s).length ∧ (digitsOnly s).length ≤ 15 := by
  simp only [phoneKeep] at h
  split_ifs at h with h1 h2 h3 h4
  injection h with h'
  subst h'
  push_neg at h1
  exact ⟨rfl, h1.1, h1.2⟩

/-! ### Claim theorems -/

/-- C1: for every invocation in which no parsed document is available
(timeout, connection error, request error, or an unexpected exception),
the returned result record has all five category sets empty and carries
the status of the failure classification; in particular a timeout yields
status `"timeout"`. -/
theorem c1_failure_empty_result (url : String) (o : FetchOutcome) (st : String)
    (h : failureStatus o = some st) :
    (scrape_contact_page url o).emails = [] ∧
    (scrape_contact_page url o).phones = [] ∧
    (scrape_contact_page url o).whatsapp = [] ∧
    (scrape_contact_page url o).urls = [] ∧
    (scrape_contact_page url o).addresses = [] ∧
    (scrape_contact_page url o).status = st ∧
    (o = FetchOutcome.timeout → st = "timeout") := by
  cases o <;> simp_all [scrape_contact_page, empty_result, failureStatus]

/-- C1 witness: a concrete timeout produces the all-empty record with
status `"timeout"`. -/
theorem c1_witness :
    (scrape_contact_page "example.com" FetchOutcome.timeout).emails = [] ∧
    (scrape_contact_page "example.com" FetchOutcome.timeout).phones = [] ∧
    (scrape_contact_page "example.com" FetchOutcome.timeout).whatsapp = [] ∧
    (scrape_contact_page "example.com" FetchOutcome.timeout).urls = [] ∧
    (scrape_contact_page "example.com" FetchOutcome.timeout).addresses = [] ∧
    (scrape_contact_page "example.com" FetchOutcome.timeout).status = "timeout" := by
  obtain ⟨h1, h2, h3, h4, h5, h6, -⟩ :=
    c1_failure_empty_result "example.com" FetchOutcome.timeout "timeout" rfl
  exact ⟨h1, h2, h3, h4, h5, h6⟩

/-- C4: a raw candidate whose digits-only form has fewer than 7 or more
than 15 digits never survives the plausibility filter, and every phone
source goes through that same filter. -/
theorem c4_length_bounds (raws : List String) (num : String) (_hmem : num ∈ raws)
    (hlen : (digitsOnly num).length < 7 ∨ 15 < (digitsOnly num).length) :
    normSpace num ∉ clean_phone_numbers raws ∧
    ∀ soup : Soup, extract_phones soup = clean_phone_numbers (raw_phone_candidates soup) := by
  refine ⟨?_, fun _ => rfl⟩
  intro hmem'
  rcases mem_collectWhere.mp hmem' with h | ⟨num', -, hf⟩
  · simp at h
  · obtain ⟨-, hlo, hhi⟩ := phoneKeep_eq_some hf
    rw [digitsOnly_normSpace] at hlo hhi
    omega

/-- C4 witness: the 5-digit candidate `"12345"` is excluded. -/
theorem c4_witness : normSpace "12345" ∉ clean_phone_numbers ["12345"] :=
  (c4_length_bounds ["12345"] "12345" (by decide) (by decide)).1

/-- C5: the filter excludes `"1984"`, `"2001"`, `"1699999999"` and
`"0000123456789"`, and retains `"5551234567"`. -/
theorem c5_phone_filter_examples :
    clean_phone_numbers ["1984"] = [] ∧
    clean_phone_numbers ["2001"] = [] ∧
    clean_phone_numbers ["1699999999"] = [] ∧
    clean_phone_numbers ["0000123456789"] = [] ∧
    clean_phone_numbers ["5551234567"] = ["5551234567"] := by decide

/-- C6 counterexample: a 200 response whose content type is
`application/json` yields the empty record with status `"failed"` — a
status value distinct from both `"non_html"` and `"http_error"`, so the
result does not carry a status of the `non_html`/`http_error` class. -/
theorem c6_counterexample :
    (scrape_contact_page "http://example.com"
      (FetchOutcome.response 200 "application/json" soup0)).status = "failed" ∧
    ("failed" : String) ≠ "non_html" ∧ ("failed" : String) ≠ "http_error" := by
  decide

/-- C6 (amended): a response with a non-HTML content type is never
scanned — the result is independent of the document — and the returned
record is the empty one with the generic status `"failed"`. -/
theorem c6_non_html_never_scanned (url : String) (code : Nat) (ct : String)
    (doc doc' : Soup) (h : containsSub "text/html" ct = false) :
    scrape_contact_page url (FetchOutcome.response code ct doc) = empty_result "failed" ∧
    scrape_contact_page url (FetchOutcome.response code ct doc) =
      scrape_contact_page url (FetchOutcome.response code ct doc') := by
  have h1 : ∀ d : Soup,
      scrape_contact_page url (FetchOutcome.response code ct d) = empty_result "failed" := by
    intro d
    simp only [scrape_contact_page]
    by_cases hc : code = 200
    · rw [if_neg (by simp [hc]), if_pos (by simp [h])]
    · rw [if_pos hc]
  exact ⟨h1 doc, (h1 doc).trans (h1 doc').symm⟩

/-- C6 witness: the concrete non-HTML response above produces exactly the
empty record with status `"failed"`. -/
theorem c6_witness :
    scrape_contact_page "http://example.com"
      (FetchOutcome.response 200 "application/json" soup0) = empty_result "failed" :=
  (c6_non_html_never_scanned "http://example.com" 200 "application/json" soup0 soup0
    (by decide)).1

/-- C9: the filter deduplicates by whitespace-normalized string, not by
digits: `"+1 415 555 0100"` and `"14155550100"` have the same digits-only
form yet both survive as distinct members of the output set. -/
theorem c9_dedup_by_normalized_string :
    "+1 415 555 0100" ∈ clean_phone_numbers ["+1 415 555 0100", "14155550100"] ∧
    "14155550100" ∈ clean_phone_numbers ["+1 415 555 0100", "14155550100"] ∧
    ("+1 415 555 0100" : String) ≠ "14155550100" ∧
    digitsOnly "+1 415 555 0100" = digitsOnly "14155550100" := by decide

/-- C10: the 4-digit-year rejection branch of the filter is unreachable —
every candidate reaching it has at least 7 digits — so the filter is
extensionally equal to the variant with that branch removed. -/
theorem c10_year_branch_unreachable (raws : List String) :
    clean_phone_numbers raws = clean_phone_numbers_no_year_branch raws := by
  unfold clean_phone_numbers clean_phone_numbers_no_year_branch
  have hfun : phoneKeep = phoneKeepNoYearBranch := by
    funext num
    simp only [phoneKeep, phoneKeepNoYearBranch]
    by_cases h1 : (digitsOnly (normSpace num)).length < 7 ∨
        15 < (digitsOnly (normSpace num)).length
    · rw [if_pos h1, if_pos h1]
    · have h4 : ¬((digitsOnly (normSpace num)).length = 4 ∧
          startsWithAny (digitsOnly (normSpace num)) ["19", "20"] = true) := by
        rintro ⟨hl, -⟩
        push_neg at h1
        omega
      rw [if_neg h1, if_neg h1]
      by_cases h2 : startsWithAny (digitsOnly (normSpace num))
          ["0000", "1111", "2222", "3333"] = true
      · rw [if_pos h2, if_pos h2]
      · rw [if_neg h2, if_neg h2, if_neg h4]
  rw [hfun]

/-- C10 witness: the two variants agree on a concrete candidate list
containing a year-like string. -/
theorem c10_witness :
    clean_phone_numbers ["1984", "5551234567"] =
      clean_phone_numbers_no_year_branch ["1984", "5551234567"] :=
  c10_year_branch_unreachable ["1984", "5551234567"]

/-- C7: for every line containing an address keyword, the collected
candidate is the join of the window one line before through three lines
after, and it is in the strategy-4 output set if and only if its joined
length is strictly between 20 and 500. -/
theorem c7_address_window (lines : List String) (i : Nat) (hi : i < lines.length)
    (htrig : address_trigger lines i = true) :
    address_context lines i ∈ address_strategy4 lines ↔
      (20 < (address_context lines i).length ∧ (address_context lines i).length < 500) := by
  unfold address_strategy4
  rw [mem_collectWhere]
  constructor
  · rintro (h | ⟨j, -, hf⟩)
    · simp at h
    · unfold address_window_candidate at hf
      split_ifs at hf with ht hb
      rw [← Option.some.inj hf]
      exact hb
  · intro hb
    refine Or.inr ⟨i, List.mem_range.mpr hi, ?_⟩
    unfold address_window_candidate
    rw [if_pos htrig, if_pos hb]

/-- C7 witness: a concrete three-line page whose first line contains
`address`; its window is retained because its length is 55. -/
theorem c7_witness :
    address_context ["Our address is here", "123 Example Street Road", "Springfield"] 0 ∈
      address_strategy4 ["Our address is here", "123 Example Street Road", "Springfield"] :=
  (c7_address_window ["Our address is here", "123 Example Street Road", "Springfield"] 0
    (by decide) (by decide)).mpr (by decide)

/-- A page whose only link is the root-relative target `/logo.png`. -/
def soupRelPng : Soup := ⟨"", ["/logo.png"], [], [], [], fun _ => [], [], []⟩

/-- C2 counterexample: the relative anchor target `/logo.png`, resolved
against the base, appears in the URL detector's output even though it
ends in the media extension `.png`. -/
theorem c2_counterexample :
    "http://example.com/logo.png" ∈ extract_urls soupRelPng "http://example.com" ∧
    hasMediaExt "http://example.com/logo.png" = true := by decide

/-- C2 (amended): the media-extension filter applies to the text-scan
source and to absolute anchor targets; every URL in the output either
passes the filter, or is the seeded site root, or came from a
root-relative anchor target, which is resolved and added unfiltered. -/
theorem c2_media_filter_scope (soup : Soup) (base_url u : String)
    (h : u ∈ extract_urls soup base_url) :
    hasMediaExt u = false ∨ u = base_domain base_url ∨
      ∃ href ∈ soup.hrefs, "http".data.isPrefixOf href.data = false ∧
        ['/'].isPrefixOf href.data = true ∧
        u = urljoinRoot (urlparse_scheme_netloc base_url).1 (base_domain base_url) href := by
  unfold extract_urls at h
  rcases mem_collectWhere.mp h with h | ⟨href, hhref, hf⟩
  · rcases mem_collectWhere.mp h with h | ⟨tu, -, hf⟩
    · rcases mem_addS.mp h with h | rfl
      · simp at h
      · exact Or.inr (Or.inl rfl)
    · simp only [textUrlCandidate] at hf
      split_ifs at hf with hm
      exact Or.inl (by rw [← Option.some.inj hf]; exact Bool.eq_false_iff.mpr hm)
  · simp only [hrefUrlCandidate] at hf
    split_ifs at hf with hhttp hm hslash
    · exact Or.inl (by rw [← Option.some.inj hf]; exact Bool.eq_false_iff.mpr hm)
    · exact Or.inr (Or.inr ⟨href, hhref, Bool.eq_false_iff.mpr hhttp, hslash,
        (Option.some.inj hf).symm⟩)

/-- C2 witness: the amended theorem applied to the concrete page with
the `/logo.png` anchor and the media-extension URL it produces. -/
theorem c2_witness :
    hasMediaExt "http://example.com/logo.png" = false ∨
    "http://example.com/logo.png" = base_domain "http://example.com" ∨
      ∃ href ∈ soupRelPng.hrefs, "http".data.isPrefixOf href.data = false ∧
        ['/'].isPrefixOf href.data = true ∧
        "http://example.com/logo.png" =
          urljoinRoot (urlparse_scheme_netloc "http://example.com").1
            (base_domain "http://example.com") href :=
  c2_media_filter_scope soupRelPng "http://example.com" "http://example.com/logo.png"
    (by decide)

/-- Modelled from the spec: the inclusion guard of sources (b) and (c) of
the Email Detector — "included only if it independently matches the same
syntactic email pattern" — read as the whole candidate matching
`EMAIL_REGEX` (a full match), for comparison with the code's `re.match`
prefix test. -/
def email_full_match_spec (e : String) : Bool :=
  (mcls isEmailLocal (mstar isEmailLocal (mcls (fun c => c = '@')
    (mcls isEmailDomain (mstar isEmailDomain (mcls (fun c => c = '.')
      (mcls Char.isAlpha (mcls Char.isAlpha (mstar Char.isAlpha
        (fun rest => if rest.isEmpty then some rest else none))))))))) e.data).isSome

/-- A page whose only link is a `mailto:` target with a trailing
non-email suffix. -/
def soupMailtoTail : Soup := ⟨"", ["mailto:a@b.com;evil"], [], [], [], fun _ => [], [], []⟩

/-- C8 counterexample: the `mailto:` candidate `a@b.com;evil` is included
in the email set although the whole candidate does not match the email
pattern — the guard accepts any candidate with a matching prefix. -/
theorem c8_counterexample :
    "a@b.com;evil" ∈ extract_emails soupMailtoTail ∧
    email_full_match_spec "a@b.com;evil" = false := by decide

/-- C8 (amended): a candidate from a `mailto:` target or a `data-email`
attribute is included only if `EMAIL_REGEX` matches at its start
(`re.match` prefix semantics); a candidate with no matching prefix is
never included. -/
theorem c8_guard_is_prefix_match (soup : Soup) (e : String)
    (h : e ∈ extract_emails soup) :
    e ∈ emailFindall soup.text ∨ emailMatchStart e = true := by
  unfold extract_emails at h
  rcases mem_collectWhere.mp h with h | ⟨x, -, hf⟩
  · rcases mem_collectWhere.mp h with h | ⟨href, -, hf⟩
    · rcases mem_collectWhere.mp h with h | ⟨t, ht, hf⟩
      · simp at h
      · obtain rfl := Option.some.inj hf
        exact Or.inl ht
    · simp only [mailtoCandidate] at hf
      split_ifs at hf with hm hstart
      exact Or.inr (by rw [← Option.some.inj hf]; exact hstart)
  · simp only [dataEmailCandidate] at hf
    split_ifs at hf with hstart
    exact Or.inr (by rw [← Option.some.inj hf]; exact hstart)

/-- C8 witness: the amended guard applied to the concrete malformed
`mailto:` candidate. -/
theorem c8_witness :
    "a@b.com;evil" ∈ emailFindall soupMailtoTail.text ∨
      emailMatchStart "a@b.com;evil" = true :=
  c8_guard_is_prefix_match soupMailtoTail "a@b.com;evil" (by decide)

/-! ### Structure of the WhatsApp keyword-anchored matches -/

theorem isNonzeroDigit_isDigit {c : Char} (h : isNonzeroDigit c = true) :
    Char.isDigit c = true := by
  simp only [isNonzeroDigit, Bool.and_eq_true] at h
  exact h.1

/-- The capture group `(\+?[1-9]\d{7,15})` always carries between 8 and
16 digits: a nonzero digit plus 7 to 15 further ones (the optional `+`
is not a digit). -/
theorem waNumCap_digit_count {s2 capL rest : List Char}
    (h : waNumCap s2 = some (capL, rest)) :
    8 ≤ (capL.filter Char.isDigit).length ∧ (capL.filter Char.isDigit).length ≤ 16 := by
  unfold waNumCap at h
  rcases mopt_eq_some h with ⟨c, cs, heq, hc, hk⟩ | hk
  · obtain ⟨c1, cs1, heq1, hnz, hk1⟩ := mcls_eq_some hk
    obtain ⟨t, u, heq2, hlo, hhi, hall, hk2⟩ := mrep_eq_some hk1
    subst heq2; subst heq1; subst heq
    simp only [capK] at hk2
    obtain ⟨hcap, -⟩ := Prod.mk.injEq .. |>.mp (Option.some.inj hk2)
    have hcapL : capL = c :: c1 :: t := by
      rw [← hcap]
      have hlen : (c :: c1 :: (t ++ u)).length - u.length = t.length + 2 := by
        simp only [List.length_cons, List.length_append]
        omega
      rw [hlen, show t.length + 2 = (t.length + 1) + 1 from rfl,
        List.take_succ_cons, List.take_succ_cons, List.take_left]
    subst hcapL
    have hplus : Char.isDigit c = false := by
      have hc' : c = '+' := by simpa using hc
      subst hc'; decide
    have hfil : (c :: c1 :: t).filter Char.isDigit = c1 :: t := by
      rw [List.filter_cons_of_neg, List.filter_cons_of_pos, List.filter_eq_self.mpr hall]
      · exact isNonzeroDigit_isDigit hnz
      · simp [hplus]
    rw [hfil]
    simp only [List.length_cons]
    omega
  · obtain ⟨c1, cs1, heq1, hnz, hk1⟩ := mcls_eq_some hk
    obtain ⟨t, u, heq2, hlo, hhi, hall, hk2⟩ := mrep_eq_some hk1
    subst heq2; subst heq1
    simp only [capK] at hk2
    obtain ⟨hcap, -⟩ := Prod.mk.injEq .. |>.mp (Option.some.inj hk2)
    have hcapL : capL = c1 :: t := by
      rw [← hcap]
      have hlen : (c1 :: (t ++ u)).length - u.length = t.length + 1 := by
        simp only [List.length_cons, List.length_append]
        omega
      rw [hlen, List.take_succ_cons, List.take_left]
    subst hcapL
    have hfil : (c1 :: t).filter Char.isDigit = c1 :: t := by
      rw [List.filter_cons_of_pos, List.filter_eq_self.mpr hall]
      exact isNonzeroDigit_isDigit hnz
    rw [hfil]
    simp only [List.length_cons]
    omega

/-- Every successful keyword-anchored match ends in a successful run of
the number group: its capture is a `waNumCap` capture. -/
theorem whatsappMatchAt_eq_some {t capL rest : List Char}
    (h : whatsappMatchAt t = some (capL, rest)) :
    ∃ s2, waNumCap s2 = some (capL, rest) := by
  simp only [whatsappMatchAt] at h
  have tailChain : ∀ u, mstar isSpacePy (mopt (fun c => c = ':')
      (mstar isSpacePy waNumCap)) u = some (capL, rest) →
      ∃ s2, waNumCap s2 = some (capL, rest) := by
    intro u hu
    obtain ⟨u2, hu2⟩ := mstar_eq_some_exists hu
    obtain ⟨u3, hu3⟩ := mopt_eq_some_exists hu2
    exact mstar_eq_some_exists hu3
  rcases orElse_eq_some h with h | h
  · obtain ⟨u, hu⟩ := mlitCI_eq_some h
    exact tailChain u hu
  rcases orElse_eq_some h with h | h
  · obtain ⟨u, hu⟩ := mlitCI_eq_some h
    exact tailChain u hu
  rcases orElse_eq_some h with h | h
  · obtain ⟨u, hu⟩ := mlitCI_eq_some h
    exact tailChain u hu
  · obtain ⟨u, hu⟩ := mlitCI_eq_some h
    obtain ⟨u2, hu2⟩ := mopt_eq_some_exists hu
    exact tailChain u2 hu2

/-- C3 counterexample: a keyword followed by a 7-digit number is NOT
recognized by the keyword-anchored strategy (the pattern requires a
nonzero digit followed by 7 to 15 more, i.e. at least 8 digits), while
an 8-digit number is. -/
theorem c3_counterexample :
    whatsapp_text_strategy "whatsapp: 1234567" = [] ∧
    whatsapp_text_strategy "whatsapp: 12345678" = ["12345678"] := by decide

/-- C3 (amended): the keyword-anchored strategy matches a WhatsApp
keyword followed by optional punctuation and a digit sequence of 8 to 16
digits (a nonzero digit then 7-15 further digits, optionally
`+`-prefixed), and retains the matched number whenever its digit count
is at least 7 — which every match satisfies. -/
theorem c3_keyword_number_bounds (text m : String)
    (h : m ∈ whatsapp_text_strategy text) :
    8 ≤ (digitsOnly m).length ∧ (digitsOnly m).length ≤ 16 ∧
      7 ≤ (digitsOnly m).length := by
  rcases mem_collectWhere.mp h with h0 | ⟨cap, hcap, hf⟩
  · simp at h0
  · simp only [whatsapp_text_candidate] at hf
    split_ifs at hf with h7
    obtain rfl := Option.some.inj hf
    obtain ⟨capL, hmem, rfl⟩ := List.mem_map.mp hcap
    obtain ⟨t, rest, hm⟩ := findallCaps_mem hmem
    obtain ⟨s2, hs2⟩ := whatsappMatchAt_eq_some hm
    have hb := waNumCap_digit_count hs2
    exact ⟨hb.1, hb.2, le_trans (by norm_num) hb.1⟩

/-- C3 witness: the amended bound applied to the concrete match of
`whatsapp: 12345678`. -/
theorem c3_witness :
    8 ≤ (digitsOnly "12345678").length ∧ (digitsOnly "12345678").length ≤ 16 ∧
      7 ≤ (digitsOnly "12345678").length :=
  c3_keyword_number_bounds "whatsapp: 12345678" "12345678" (by decide)

end Scrapper
